import Mathlib

/-!
Verification development for the snake game engine in `src/snake.py`
("Snake of Time": a snake game with bounded-depth time rewind).

The Python classes `Snake` and `GameSession` are shallowly embedded below.
Mutation is modelled by state-passing; `pygame.time.get_ticks()` is an
explicit `now : Int` argument; `random.randrange` is modelled by an
explicit draw oracle (the caller supplies the randomness), and raises
(returns `none`) exactly when its range is empty, as in Python.
Fallible operations (`randrange` on an empty range, `deque.pop` on an
empty deque) return `Option`.
-/

set_option maxRecDepth 4000
set_option linter.unusedVariables false

/-- pygame.Rect: an integer rectangle given by its top-left corner and size. -/
structure Rect where
  left : Int
  top : Int
  width : Int
  height : Int
deriving DecidableEq

instance : Inhabited Rect := ⟨⟨0, 0, 0, 0⟩⟩

namespace Rect

/-- pygame `Rect.right`. -/
def right (r : Rect) : Int := r.left + r.width

/-- pygame `Rect.bottom`. -/
def bottom (r : Rect) : Int := r.top + r.height

/-- pygame `Rect.topleft`. -/
def topleft (r : Rect) : Int × Int := (r.left, r.top)

/-- pygame `Rect.center`: integer division truncates toward zero (C semantics). -/
def center (r : Rect) : Int × Int := (r.left + r.width / 2, r.top + r.height / 2)

/-- pygame `Rect.move_ip(dx, dy)` (functional result of the in-place move). -/
def move_ip (r : Rect) (dx dy : Int) : Rect := { r with left := r.left + dx, top := r.top + dy }

/-- pygame `Rect.colliderect`: overlap test on normalized rectangles, strict on
all sides (rectangles that only touch do not collide). -/
def colliderect (a b : Rect) : Bool :=
  decide (min a.left (a.left + a.width) < max b.left (b.left + b.width)) &&
  decide (min b.left (b.left + b.width) < max a.left (a.left + a.width)) &&
  decide (min a.top (a.top + a.height) < max b.top (b.top + b.height)) &&
  decide (min b.top (b.top + b.height) < max a.top (a.top + a.height))

end Rect

/-- `GameArea = namedtuple('GameArea', 'left, top, width, height')`. -/
structure GameArea where
  left : Int
  top : Int
  width : Int
  height : Int
deriving DecidableEq

namespace Snake

/-- `Snake.Direction`, an `Enum` whose value is the unit movement vector. -/
inductive Direction where
  | up
  | down
  | left
  | right
deriving DecidableEq

/-- The `.value` of each `Snake.Direction` member. -/
def Direction.value : Direction → Int × Int
  | .up => (0, -1)
  | .down => (0, 1)
  | .left => (-1, 0)
  | .right => (1, 0)

/-- The exact opposite of a direction (spec vocabulary for the turn guard). -/
def Direction.opposite : Direction → Direction
  | .up => .down
  | .down => .up
  | .left => .right
  | .right => .left

/-- `Snake.PART_SIZE`. -/
def PART_SIZE : Int := 15

end Snake

/-- `GameLog = namedtuple('GameLog', 'snake_direction, snake_parts, food')`;
`snake_parts` and `food` hold `(left, top)` coordinate pairs. -/
structure GameLog where
  snake_direction : Snake.Direction
  snake_parts : List (Int × Int)
  food : Int × Int
deriving DecidableEq

instance : Inhabited GameLog := ⟨⟨Snake.Direction.left, [], (0, 0)⟩⟩

/-- The `Snake` class: a current direction and the list of body parts
(`parts[0]` is the head). -/
structure Snake where
  direction : Snake.Direction
  parts : List Rect
deriving DecidableEq

namespace Snake

/-- `Snake.head` property (`self.parts[0]`; Python raises on an empty list,
which never occurs: every constructed snake is non-empty). -/
def head (s : Snake) : Rect := s.parts.headI

/-- `Snake.tail` property (`self.parts[1:]`). -/
def tail (s : Snake) : List Rect := s.parts.tail

/-- `Snake.increase`: append a new `PART_SIZE` square at the current position of
the last part (`self.parts[-1]`; Python raises on an empty list, which never
occurs). -/
def increase (s : Snake) : Snake :=
  let part := s.parts.getLastD default
  { s with parts := s.parts ++ [⟨part.left, part.top, PART_SIZE, PART_SIZE⟩] }

/-- `Snake.__init__(start_x, start_y, tail_length)`: one part at the start
position, then `tail_length` calls of `increase`; direction starts `LEFT`. -/
def init (start_x start_y : Int) (tail_length : Nat) : Snake :=
  (List.range tail_length).foldl (fun s _ => s.increase)
    { direction := Direction.left, parts := [⟨start_x, start_y, PART_SIZE, PART_SIZE⟩] }

/-- `Snake.has_collisions(game_are)`: the head is outside the area on any side,
or overlaps some tail part. -/
def has_collisions (s : Snake) (game_are : GameArea) : Bool :=
  let head := s.head
  decide (head.left < game_are.left) ||
  decide (game_are.left + game_are.width < head.right) ||
  decide (head.top < game_are.top) ||
  decide (game_are.top + game_are.height < head.bottom) ||
  s.tail.any (fun part => head.colliderect part)

/-- `Snake.move`: the Python loop runs `i` from the last index down to `1`,
assigning `parts[i].x, parts[i].y := parts[i-1].x, parts[i-1].y`; in that order
each part copies the pre-move position of its predecessor, so the functional
result is `parts[i] := old parts[i-1]` for `i ≥ 1`.  Then the head is moved in
place by `direction.value * (head.width, head.height)`. -/
def move (s : Snake) : Snake :=
  match s.parts with
  | [] => s
  | h :: t =>
    let v := s.direction.value
    { s with parts :=
        (h.move_ip (v.1 * h.width) (v.2 * h.height) ::
          List.zipWith
            (fun previous_part current_part =>
              { current_part with left := previous_part.left, top := previous_part.top })
            (h :: t) t) }

/-- `Snake.turn_up`: set direction to `UP` unless currently `DOWN`. -/
def turn_up (s : Snake) : Snake :=
  if s.direction ≠ Direction.down then { s with direction := Direction.up } else s

/-- `Snake.turn_down`: set direction to `DOWN` unless currently `UP`. -/
def turn_down (s : Snake) : Snake :=
  if s.direction ≠ Direction.up then { s with direction := Direction.down } else s

/-- `Snake.turn_left`: set direction to `LEFT` unless currently `RIGHT`. -/
def turn_left (s : Snake) : Snake :=
  if s.direction ≠ Direction.right then { s with direction := Direction.left } else s

/-- `Snake.turn_right`: set direction to `RIGHT` unless currently `LEFT`. -/
def turn_right (s : Snake) : Snake :=
  if s.direction ≠ Direction.left then { s with direction := Direction.right } else s

end Snake

/-- The mutable state of a `GameSession` (sound objects and the injected pygame
clock/keyboard are externalized). -/
structure GameSession where
  area : GameArea
  frame_time : Int
  is_running : Bool
  logs : List GameLog
  is_reversed : Bool
  last_full_revert : Int
  is_predictable_future : Bool
  next_foods : List Rect
  snake : Snake
  food : Rect
deriving DecidableEq

/-- Python `random.randrange(a, b)`: raises `ValueError` (here: `none`) when
the range `[a, b)` is empty; otherwise returns a value of `[a, b)`, chosen here
by reducing the oracle's draw into the range. -/
def randrange (a b draw : Int) : Option Int :=
  if a < b then some (a + draw.emod (b - a)) else none

namespace GameSession

/-- `GameSession.LOG_LIMIT` (the deque capacity). -/
def LOG_LIMIT : Nat := 25

/-- `GameSession.FOOD_SIZE`. -/
def FOOD_SIZE : Int := 20

/-- `GameSession.SNAKE_START_LENGTH`. -/
def SNAKE_START_LENGTH : Nat := 3

/-- pygame key codes used by `handle_keypress` (SDL2 values). -/
def K_UP : Int := 1073741906

/-- pygame `K_DOWN`. -/
def K_DOWN : Int := 1073741905

/-- pygame `K_LEFT`. -/
def K_LEFT : Int := 1073741904

/-- pygame `K_RIGHT`. -/
def K_RIGHT : Int := 1073741903

/-- `GameSession.generate_food`: with predictable future on and a non-empty
deferred queue, pop (from the end) and return the last deferred food; otherwise
draw a random position inside the area with a `FOOD_SIZE * 2` margin.  Returns
the food together with the resulting deferred queue. -/
def generate_food (s : GameSession) (draw : Int × Int) : Option (Rect × List Rect) :=
  if s.is_predictable_future && !s.next_foods.isEmpty then
    match s.next_foods.getLast? with
    | some f => some (f, s.next_foods.dropLast)
    | none => none
  else
    match randrange s.area.left (s.area.left + s.area.width - FOOD_SIZE * 2) draw.1,
          randrange s.area.top (s.area.top + s.area.height - FOOD_SIZE * 2) draw.2 with
    | some rand_left, some rand_top =>
        some (⟨rand_left, rand_top, FOOD_SIZE, FOOD_SIZE⟩, s.next_foods)
    | _, _ => none

/-- `GameSession.__init__`: note `((width / 2) // PART_SIZE) * PART_SIZE` with
Python real division equals `⌊width / (2 * PART_SIZE)⌋ * PART_SIZE` (floor
division), and `generate_food` is called with the deferred queue still empty.
Construction fails (`none`) exactly when the initial `generate_food` raises. -/
def init (game_area : GameArea) (frame_time : Int) (is_predictable_future : Bool)
    (now : Int) (draw : Int × Int) : Option GameSession :=
  let start_left := game_area.left + (Int.fdiv game_area.width (2 * Snake.PART_SIZE)) * Snake.PART_SIZE
  let start_top := game_area.top + (Int.fdiv game_area.height (2 * Snake.PART_SIZE)) * Snake.PART_SIZE
  let base : GameSession :=
    { area := game_area
      frame_time := frame_time
      is_running := true
      logs := []
      is_reversed := false
      last_full_revert := now
      is_predictable_future := is_predictable_future
      next_foods := []
      snake := Snake.init start_left start_top (SNAKE_START_LENGTH - 1)
      food := default }
  (base.generate_food draw).map fun fg => { base with food := fg.1, next_foods := fg.2 }

/-- `GameSession.is_full_reversed` property, at clock value `now`. -/
def is_full_reversed (s : GameSession) (now : Int) : Bool :=
  decide (now - s.last_full_revert ≤ (LOG_LIMIT : Int) * s.frame_time)

/-- `GameSession.score` property. -/
def score (s : GameSession) : Int :=
  (s.snake.parts.length : Int) - (SNAKE_START_LENGTH : Int)

/-- The `GameLog` recorded by `GameSession._add_log`. -/
def game_log_of (s : GameSession) : GameLog :=
  { snake_direction := s.snake.direction
    snake_parts := s.snake.parts.map fun part => (part.left, part.top)
    food := (s.food.left, s.food.top) }

/-- `deque.append` with `maxlen = LOG_LIMIT`: appending at capacity evicts the
oldest entry. -/
def push_log (logs : List GameLog) (g : GameLog) : List GameLog :=
  if logs.length < LOG_LIMIT then logs ++ [g] else logs.tail ++ [g]

/-- `GameSession._add_log`. -/
def add_log (s : GameSession) : GameSession :=
  { s with logs := push_log s.logs (game_log_of s) }

/-- `GameSession._move_forward`: move the snake, recompute `is_running` from
collisions, grow and regenerate food when running and the head overlaps the
food, and append a log — unconditionally, also on the game-over tick. -/
def move_forward (s : GameSession) (draw : Int × Int) : Option GameSession :=
  let snake := s.snake.move
  let is_running := !snake.has_collisions s.area
  if is_running && snake.head.colliderect s.food then
    match s.generate_food draw with
    | some fg =>
        some (add_log
          { s with snake := snake.increase, is_running := is_running,
                   food := fg.1, next_foods := fg.2 })
    | none => none
  else
    some (add_log { s with snake := snake, is_running := is_running })

/-- `GameSession._move_backward`: pop the most recent log (`deque.pop` raises
on an empty deque, hence `none`), restore direction, parts and food from it,
record `now` as the last full revert when the deque drains, and — with
predictable future on — push the displaced food when its center differs. -/
def move_backward (s : GameSession) (now : Int) : Option GameSession :=
  match s.logs.getLast? with
  | none => none
  | some last_log =>
    let logs := s.logs.dropLast
    let last_full_revert := if logs.isEmpty then now else s.last_full_revert
    let snake : Snake :=
      { direction := last_log.snake_direction
        parts := last_log.snake_parts.map fun p =>
          (⟨p.1, p.2, Snake.PART_SIZE, Snake.PART_SIZE⟩ : Rect) }
    let food : Rect := ⟨last_log.food.1, last_log.food.2, FOOD_SIZE, FOOD_SIZE⟩
    let next_foods :=
      if s.is_predictable_future && decide (food.center ≠ s.food.center) then
        s.next_foods ++ [s.food]
      else s.next_foods
    some { s with logs := logs, last_full_revert := last_full_revert,
                  snake := snake, food := food, next_foods := next_foods }

/-- `GameSession.handle_keypress`. -/
def handle_keypress (s : GameSession) (key : Int) : GameSession :=
  if key = K_UP then { s with snake := s.snake.turn_up }
  else if key = K_DOWN then { s with snake := s.snake.turn_down }
  else if key = K_LEFT then { s with snake := s.snake.turn_left }
  else if key = K_RIGHT then { s with snake := s.snake.turn_right }
  else s

/-- `GameSession.move_snake`: choose backward when the rewind key is held, the
log is non-empty and the charge cooldown is over; record the choice in
`is_reversed`. -/
def move_snake (s : GameSession) (r_pressed : Bool) (now : Int) (draw : Int × Int) :
    Option GameSession :=
  let is_reversed := r_pressed && !s.logs.isEmpty && !(s.is_full_reversed now)
  let s1 := { s with is_reversed := is_reversed }
  if is_reversed then s1.move_backward now else s1.move_forward draw

/-! Verification helpers: the forward tick in which nothing special happens
(no collision, no food), and iterated forward/backward runs. -/

/-- The functional effect of `_move_forward` on a tick with no collision and no
food overlap (see `move_forward_plain` below). -/
def plain_tick (s : GameSession) : GameSession :=
  add_log { s with snake := s.snake.move, is_running := true }

/-- The side conditions under which a forward tick is `plain_tick`. -/
def plain_tick_ok (s : GameSession) : Prop :=
  s.snake.move.has_collisions s.area = false ∧
  s.snake.move.head.colliderect s.food = false

instance (s : GameSession) : Decidable (plain_tick_ok s) := by
  unfold plain_tick_ok; infer_instance

/-- `n` plain forward ticks. -/
def plain_run (s : GameSession) : Nat → GameSession
  | 0 => s
  | n + 1 => (plain_run s n).plain_tick

/-- `n` backward ticks (all at clock value `now`). -/
def backward_run (now : Int) (s : GameSession) : Nat → Option GameSession
  | 0 => some s
  | n + 1 => (s.move_backward now).bind fun s1 => backward_run now s1 n

/-- The state produced by one backward tick popping `g` off a log `T ++ [g]`
(see `move_backward_concat` below). -/
def restore (s : GameSession) (now : Int) (T : List GameLog) (g : GameLog) : GameSession :=
  { s with
    logs := T
    last_full_revert := if T.isEmpty then now else s.last_full_revert
    snake :=
      { direction := g.snake_direction
        parts := g.snake_parts.map fun p =>
          (⟨p.1, p.2, Snake.PART_SIZE, Snake.PART_SIZE⟩ : Rect) }
    food := ⟨g.food.1, g.food.2, FOOD_SIZE, FOOD_SIZE⟩
    next_foods :=
      if s.is_predictable_future &&
          decide ((⟨g.food.1, g.food.2, FOOD_SIZE, FOOD_SIZE⟩ : Rect).center ≠ s.food.center)
        then s.next_foods ++ [s.food] else s.next_foods }

/-- The logs appended by the first `n` ticks of a plain run, oldest first. -/
def snap_list (s : GameSession) : Nat → List GameLog
  | 0 => []
  | n + 1 => snap_list s n ++ [game_log_of (plain_run s (n + 1))]

/-- Keep the newest `LOG_LIMIT` entries (the net effect of capped appends). -/
def trim_logs (l : List GameLog) : List GameLog := l.drop (l.length - LOG_LIMIT)

/-- The session invariant behind claim C3: the snake never has fewer than
`SNAKE_START_LENGTH` parts, and neither does any recorded snapshot. -/
def SessionInv (s : GameSession) : Prop :=
  SNAKE_START_LENGTH ≤ s.snake.parts.length ∧
  ∀ g ∈ s.logs, SNAKE_START_LENGTH ≤ g.snake_parts.length

end GameSession

/-! Concrete scenario material: the spec's reference area `(0, 0, 800, 600)`
and sessions reachable from `GameSession.init` on it. -/

/-- The spec scenario area `(0, 0, 800, 600)`. -/
def area800 : GameArea := ⟨0, 0, 800, 600⟩

/-- A narrow area, used to reach the wall quickly. -/
def area120 : GameArea := ⟨0, 0, 120, 600⟩

/-- The freshly constructed snake on `area800`: three parts at `(390, 300)`. -/
def snake390 : Snake :=
  { direction := Snake.Direction.left
    parts := [⟨390, 300, 15, 15⟩, ⟨390, 300, 15, 15⟩, ⟨390, 300, 15, 15⟩] }

/-- The session produced by `GameSession.init area800 40 false 0 (0, 0)`:
food drawn at `(0, 0)`, away from the snake's path. -/
def session0 : GameSession :=
  { area := area800
    frame_time := 40
    is_running := true
    logs := []
    is_reversed := false
    last_full_revert := 0
    is_predictable_future := false
    next_foods := []
    snake := snake390
    food := ⟨0, 0, 20, 20⟩ }

/-- A running session about to hit the left wall on its next move. -/
def dead_pre : GameSession :=
  { session0 with snake :=
      { direction := Snake.Direction.left
        parts := [⟨0, 300, 15, 15⟩, ⟨15, 300, 15, 15⟩, ⟨30, 300, 15, 15⟩] } }

/-- A game-over session with one recorded snapshot. -/
def dead0 : GameSession :=
  { dead_pre with
    is_running := false
    logs := [⟨Snake.Direction.left, [(0, 300), (15, 300), (30, 300)], (0, 0)⟩] }

/-- A predictable-future session with one deferred food. -/
def sessionNF : GameSession :=
  { session0 with is_predictable_future := true, next_foods := [⟨700, 500, 20, 20⟩] }

/-- An externally applied session operation: a tick of the driver loop (rewind
key not held), or a keypress. -/
inductive Op where
  | tick
  | key (k : Int)

/-- Apply one operation. -/
def apply_op (s : GameSession) : Op → Option GameSession
  | .tick => s.move_snake false 1 (0, 0)
  | .key k => some (s.handle_keypress k)

/-- Apply a list of operations in order. -/
def run_ops (s : GameSession) : List Op → Option GameSession
  | [] => some s
  | op :: ops => (apply_op s op).bind fun s1 => run_ops s1 ops

/-- Iterated forward ticks on an optional session, all with draw `(0, 0)`. -/
def fwd_run (x : Option GameSession) : Nat → Option GameSession
  | 0 => x
  | n + 1 => (fwd_run x n).bind fun s => s.move_forward (0, 0)

/-- A running session whose next move eats the food. -/
def session_eat : GameSession := { session0 with food := ⟨360, 300, 20, 20⟩ }

/-- Predictable-future session on `area800`, food drawn at `(350, 300)`: one
plain tick, one eating tick (food respawned at `(700, 500)`), then two backward
ticks rewinding past the eating event. -/
def c6rewound : Option GameSession :=
  ((((GameSession.init area800 40 true 0 (350, 300)).bind
      fun s => s.move_forward (0, 0)).bind
      fun s => s.move_forward (700, 500)).bind
      fun s => s.move_backward 0).bind
      fun s => s.move_backward 0

/-- ... then one forward tick that eats again: the respawned food must replay
`(700, 500)`, not the fresh draw `(123, 45)`. -/
def c6replay : Option GameSession := c6rewound.bind fun s => s.move_forward (123, 45)

/-! Helper lemmas. -/

theorem Snake.turn_up_parts (s : Snake) : s.turn_up.parts = s.parts := by
  unfold turn_up; split <;> rfl

theorem Snake.turn_down_parts (s : Snake) : s.turn_down.parts = s.parts := by
  unfold turn_down; split <;> rfl

theorem Snake.turn_left_parts (s : Snake) : s.turn_left.parts = s.parts := by
  unfold turn_left; split <;> rfl

theorem Snake.turn_right_parts (s : Snake) : s.turn_right.parts = s.parts := by
  unfold turn_right; split <;> rfl

theorem Snake.move_direction (s : Snake) : s.move.direction = s.direction := by
  unfold move; split <;> rfl

theorem Snake.move_parts_length (s : Snake) : s.move.parts.length = s.parts.length := by
  unfold move
  split
  · rfl
  · rename_i h t heq
    simp [heq, List.length_zipWith]

theorem Snake.increase_parts_length (s : Snake) :
    s.increase.parts.length = s.parts.length + 1 := by
  unfold increase; simp

/-- C7: each turn operation is a no-op when the requested direction is the
exact opposite of the current one, and otherwise sets the direction to the
requested value (changing nothing else). -/
theorem C7_turn_guard (s : Snake) :
    s.turn_up = (if s.direction = Snake.Direction.up.opposite then s
                 else { s with direction := Snake.Direction.up }) ∧
    s.turn_down = (if s.direction = Snake.Direction.down.opposite then s
                   else { s with direction := Snake.Direction.down }) ∧
    s.turn_left = (if s.direction = Snake.Direction.left.opposite then s
                   else { s with direction := Snake.Direction.left }) ∧
    s.turn_right = (if s.direction = Snake.Direction.right.opposite then s
                    else { s with direction := Snake.Direction.right }) := by
  obtain ⟨d, ps⟩ := s
  cases d <;>
    simp [Snake.turn_up, Snake.turn_down, Snake.turn_left, Snake.turn_right,
      Snake.Direction.opposite]

/-- C8: `move` leaves the length unchanged, gives every part of index `i ≥ 1`
the pre-move position of the part of index `i - 1`, and translates the head by
the direction's unit vector times the part size. -/
theorem C8_move_follow_the_leader (s : Snake) (hne : s.parts ≠ [])
    (hw : s.head.width = Snake.PART_SIZE) (hh : s.head.height = Snake.PART_SIZE) :
    s.move.parts.length = s.parts.length ∧
    (∀ i : Nat, i + 1 < s.parts.length →
      s.move.parts[i + 1]?.map Rect.topleft = s.parts[i]?.map Rect.topleft) ∧
    s.move.head.topleft =
      (s.head.left + (s.direction.value).1 * Snake.PART_SIZE,
       s.head.top + (s.direction.value).2 * Snake.PART_SIZE) ∧
    s.move.direction = s.direction := by
  refine ⟨s.move_parts_length, ?_, ?_, s.move_direction⟩
  · intro i hi
    obtain ⟨d, ps⟩ := s
    cases ps with
    | nil => exact absurd rfl hne
    | cons h t =>
      simp only [List.length_cons] at hi
      have hit : i < t.length := Nat.lt_of_succ_lt_succ hi
      have hiht : i < (h :: t).length := by simp; omega
      simp only [Snake.move, List.getElem?_cons_succ, List.getElem?_zipWith,
        List.getElem?_eq_getElem hiht, List.getElem?_eq_getElem hit]
      simp [Rect.topleft]
  · obtain ⟨d, ps⟩ := s
    cases ps with
    | nil => exact absurd rfl hne
    | cons h t =>
      simp only [Snake.head, List.headI] at hw hh ⊢
      simp [Snake.move, Rect.move_ip, Rect.topleft, hw, hh]

/-- Witness for C8 at the freshly constructed snake. -/
theorem C8_move_follow_the_leader_witness :
    snake390.move.parts[2]?.map Rect.topleft = snake390.parts[1]?.map Rect.topleft ∧
    snake390.move.head.topleft =
      (snake390.head.left + (snake390.direction.value).1 * Snake.PART_SIZE,
       snake390.head.top + (snake390.direction.value).2 * Snake.PART_SIZE) :=
  ⟨(C8_move_follow_the_leader snake390 (by decide) (by decide) (by decide)).2.1 1 (by decide),
   (C8_move_follow_the_leader snake390 (by decide) (by decide) (by decide)).2.2.1⟩

/-- C10: `handle_keypress` can change only the snake's direction — every other
session field and the segment positions are untouched — and any key other than
the four arrow keys changes nothing at all. -/
theorem C10_keypress_effect (s : GameSession) (key : Int) :
    (s.handle_keypress key).snake.parts = s.snake.parts ∧
    (s.handle_keypress key).area = s.area ∧
    (s.handle_keypress key).frame_time = s.frame_time ∧
    (s.handle_keypress key).is_running = s.is_running ∧
    (s.handle_keypress key).logs = s.logs ∧
    (s.handle_keypress key).is_reversed = s.is_reversed ∧
    (s.handle_keypress key).last_full_revert = s.last_full_revert ∧
    (s.handle_keypress key).is_predictable_future = s.is_predictable_future ∧
    (s.handle_keypress key).next_foods = s.next_foods ∧
    (s.handle_keypress key).food = s.food ∧
    (key ≠ GameSession.K_UP → key ≠ GameSession.K_DOWN → key ≠ GameSession.K_LEFT →
      key ≠ GameSession.K_RIGHT → s.handle_keypress key = s) := by
  unfold GameSession.handle_keypress
  split_ifs with h1 h2 h3 h4 <;>
    simp_all [Snake.turn_up_parts, Snake.turn_down_parts, Snake.turn_left_parts,
      Snake.turn_right_parts]

/-- Witness for C10: an unrelated key (carriage return, 13) changes nothing. -/
theorem C10_keypress_effect_witness : session0.handle_keypress 13 = session0 :=
  (C10_keypress_effect session0 13).2.2.2.2.2.2.2.2.2.2
    (by decide) (by decide) (by decide) (by decide)

theorem GameSession.set_is_reversed_self (s : GameSession) (h : s.is_reversed = false) :
    ({ s with is_reversed := false } : GameSession) = s := by
  cases s
  simp_all

/-- C9: on a fresh session the last-full-revert timestamp is the construction
time, so `is_full_reversed` holds at every instant of the first
`LOG_LIMIT * frame_time` milliseconds, and `move_snake` can only go forward
then (the history is also still empty). -/
theorem C9_fresh_session_cooldown (game_area : GameArea) (frame_time : Int) (pf : Bool)
    (now : Int) (draw : Int × Int) (s : GameSession) (t : Int)
    (hinit : GameSession.init game_area frame_time pf now draw = some s)
    (h1 : now ≤ t) (h2 : t ≤ now + (GameSession.LOG_LIMIT : Int) * frame_time) :
    s.last_full_revert = now ∧
    s.logs = [] ∧
    s.is_full_reversed t = true ∧
    (∀ (r : Bool) (d2 : Int × Int), s.move_snake r t d2 = s.move_forward d2) := by
  unfold GameSession.init at hinit
  rw [Option.map_eq_some'] at hinit
  obtain ⟨fg, hfg, rfl⟩ := hinit
  refine ⟨rfl, rfl, ?_, ?_⟩
  · unfold GameSession.is_full_reversed
    simp only [decide_eq_true_eq]
    have : (GameSession.LOG_LIMIT : Int) = 25 := rfl
    omega
  · intro r d2
    unfold GameSession.move_snake
    simp

/-- Witness for C9 on the concrete fresh session. -/
theorem C9_fresh_session_cooldown_witness :
    session0.is_full_reversed 1000 = true ∧
    session0.move_snake true 1000 (5, 5) = session0.move_forward (5, 5) :=
  ⟨(C9_fresh_session_cooldown area800 40 false 0 (0, 0) session0 1000
      (by decide) (by decide) (by decide)).2.2.1,
   (C9_fresh_session_cooldown area800 40 false 0 (0, 0) session0 1000
      (by decide) (by decide) (by decide)).2.2.2 true (5, 5)⟩

/-- C4 (amended): construction fails — with `randrange`'s `ValueError`, not a
dedicated configuration error — exactly when the area is at most
`2 * FOOD_SIZE` wide or tall; in particular it does fail for non-positive
dimensions, but succeeds for every frame time, including non-positive ones. -/
theorem C4_construction_failure (game_area : GameArea) (frame_time : Int) (pf : Bool)
    (now : Int) (draw : Int × Int) :
    GameSession.init game_area frame_time pf now draw = none ↔
      game_area.width ≤ 2 * GameSession.FOOD_SIZE ∨
      game_area.height ≤ 2 * GameSession.FOOD_SIZE := by
  unfold GameSession.init GameSession.generate_food randrange
  simp only [List.isEmpty_nil, Bool.not_true, Bool.and_false, Bool.false_eq_true, if_false,
    GameSession.FOOD_SIZE]
  split_ifs with hw hh hh <;> simp <;> omega

/-- Counterexample for C4 as claimed: a session is constructed despite a
non-positive (zero) frame time, and construction fails for a positive but
small width. -/
theorem C4_counterexample :
    (GameSession.init area800 0 false 0 (0, 0)).isSome = true ∧
    GameSession.init ⟨0, 0, 30, 600⟩ 40 false 0 (0, 0) = none := by
  constructor
  · decide
  · decide

/-- C2 (amended): on a forward step whose move collides, the session stops
running and no food check, growth or food regeneration happens — but a
snapshot of the post-collision state IS appended to the history. -/
theorem C2_collision_tick (s : GameSession) (draw : Int × Int)
    (hc : s.snake.move.has_collisions s.area = true) :
    s.move_forward draw =
      some (GameSession.add_log { s with snake := s.snake.move, is_running := false }) ∧
    (∀ s1, s.move_forward draw = some s1 →
      s1.is_running = false ∧
      s1.food = s.food ∧
      s1.next_foods = s.next_foods ∧
      s1.snake.parts.length = s.snake.parts.length ∧
      s1.logs = GameSession.push_log s.logs
        (GameSession.game_log_of { s with snake := s.snake.move, is_running := false })) := by
  have heq : s.move_forward draw =
      some (GameSession.add_log { s with snake := s.snake.move, is_running := false }) := by
    unfold GameSession.move_forward
    simp [hc]
  refine ⟨heq, ?_⟩
  intro s1 h1
  rw [heq] at h1
  injection h1 with h1
  subst h1
  refine ⟨rfl, rfl, rfl, ?_, rfl⟩
  exact s.snake.move_parts_length

/-- Witness for C2 (amended) at a session about to hit the left wall. -/
theorem C2_collision_tick_witness :
    dead_pre.move_forward (0, 0) =
      some (GameSession.add_log
        { dead_pre with snake := dead_pre.snake.move, is_running := false }) ∧
    ∀ s1, dead_pre.move_forward (0, 0) = some s1 → s1.is_running = false :=
  ⟨(C2_collision_tick dead_pre (0, 0) (by decide)).1,
   fun s1 h => ((C2_collision_tick dead_pre (0, 0) (by decide)).2 s1 h).1⟩

/-- Counterexample for C2 as claimed: on the collision tick (tick 5 on the
narrow area) the history grows from 4 to 5 entries, so a snapshot IS appended
on the game-over transition. -/
theorem C2_counterexample :
    (fwd_run (GameSession.init area120 40 false 0 (0, 0)) 4).map
        (fun s => (s.is_running, s.logs.length)) = some (true, 4) ∧
    (fwd_run (GameSession.init area120 40 false 0 (0, 0)) 5).map
        (fun s => (s.is_running, s.logs.length)) = some (false, 5) := by
  constructor
  · decide
  · decide

/-- C5 (amended): once `is_running` is false it stays false under keypresses
and backward ticks (and the driver loop issues no further forward ticks); a
forward tick applied directly to a game-over session, however, recomputes
`is_running` from scratch and can resurrect the session. -/
theorem C5_game_over_keypress_backward (s : GameSession) (key : Int) (now : Int)
    (h : s.is_running = false) :
    (s.handle_keypress key).is_running = false ∧
    (∀ s1, s.move_backward now = some s1 → s1.is_running = false) := by
  constructor
  · unfold GameSession.handle_keypress
    split_ifs <;> simpa using h
  · intro s1 h1
    unfold GameSession.move_backward at h1
    split at h1
    · exact absurd h1 (by simp)
    · injection h1 with h1
      subst h1
      simpa using h

/-- Witness for C5 (amended) at a concrete game-over session. -/
theorem C5_game_over_keypress_backward_witness :
    (dead0.handle_keypress GameSession.K_UP).is_running = false ∧
    ((dead0.move_backward 5).getD dead0).is_running = false :=
  ⟨(C5_game_over_keypress_backward dead0 GameSession.K_UP 5 rfl).1,
   (C5_game_over_keypress_backward dead0 GameSession.K_UP 5 rfl).2
     ((dead0.move_backward 5).getD dead0) (by decide)⟩

/-- Counterexample for C5 as claimed: from the fresh session, 27 driver ticks
end in game over (`is_running = false`), yet two turn keypresses and two more
forward ticks make `is_running` true again — a forward tick on a game-over
session can resurrect it. -/
theorem C5_counterexample :
    (run_ops session0 (List.replicate 27 Op.tick)).map (fun s => s.is_running) =
      some false ∧
    (run_ops session0 (List.replicate 27 Op.tick ++
        [Op.key GameSession.K_UP, Op.tick, Op.key GameSession.K_RIGHT, Op.tick])).map
      (fun s => s.is_running) = some true := by
  constructor
  · decide
  · decide

/-- C6: with predictable future on and a non-empty deferred-food queue,
`generate_food` pops and returns the queue's last entry (LIFO) instead of
drawing; consequently, in the concrete rewind scenario the food respawned
after re-eating is again exactly `(700, 500)` — the position spawned before
the rewind — and not the fresh draw. -/
theorem C6_predictable_food_replay :
    (∀ (s : GameSession) (draw : Int × Int) (gs : List Rect) (g : Rect),
      s.is_predictable_future = true → s.next_foods = gs ++ [g] →
      s.generate_food draw = some (g, gs)) ∧
    c6rewound.map (fun s => s.next_foods) = some [⟨700, 500, 20, 20⟩] ∧
    c6replay.map (fun s => s.food) = some ⟨700, 500, 20, 20⟩ ∧
    c6replay.map (fun s => s.next_foods) = some [] := by
  refine ⟨?_, by decide, by decide, by decide⟩
  intro s draw gs g hpf hnf
  unfold GameSession.generate_food
  rw [hpf, hnf, List.getLast?_concat, List.dropLast_concat]
  simp

/-- Witness for C6's queue-popping branch at a concrete session. -/
theorem C6_predictable_food_replay_witness :
    sessionNF.generate_food (0, 0) = some (⟨700, 500, 20, 20⟩, []) :=
  (C6_predictable_food_replay).1 sessionNF (0, 0) [] ⟨700, 500, 20, 20⟩ rfl rfl

theorem GameSession.move_forward_plain (s : GameSession) (draw : Int × Int)
    (h : GameSession.plain_tick_ok s) : s.move_forward draw = some s.plain_tick := by
  obtain ⟨h1, h2⟩ := h
  unfold GameSession.move_forward GameSession.plain_tick
  simp [h1, h2]

theorem GameSession.plain_run_food (s : GameSession) (n : Nat) :
    (GameSession.plain_run s n).food = s.food := by
  induction n with
  | zero => rfl
  | succ n ih =>
    show (GameSession.plain_run s n).food = s.food
    exact ih

theorem GameSession.plain_tick_direction (s : GameSession) :
    s.plain_tick.snake.direction = s.snake.direction := by
  show s.snake.move.direction = s.snake.direction
  exact s.snake.move_direction

theorem GameSession.plain_run_direction (s : GameSession) (n : Nat) :
    (GameSession.plain_run s n).snake.direction = s.snake.direction := by
  induction n with
  | zero => rfl
  | succ n ih =>
    rw [GameSession.plain_run, GameSession.plain_tick_direction, ih]

theorem GameSession.push_log_trim (M : List GameLog) (g : GameLog) :
    GameSession.push_log (GameSession.trim_logs M) g = GameSession.trim_logs (M ++ [g]) := by
  have hLL : GameSession.LOG_LIMIT = 25 := rfl
  unfold GameSession.push_log GameSession.trim_logs
  rcases Nat.lt_or_ge M.length GameSession.LOG_LIMIT with h | h
  · rw [Nat.sub_eq_zero_of_le (Nat.le_of_lt h), List.drop_zero, if_pos h,
      List.length_append, Nat.sub_eq_zero_of_le (by simp; omega), List.drop_zero]
  · have hlen : (M.drop (M.length - GameSession.LOG_LIMIT)).length = GameSession.LOG_LIMIT := by
      rw [List.length_drop]; omega
    rw [if_neg (by rw [hlen]; exact Nat.lt_irrefl _), List.tail_drop, List.length_append,
      List.drop_append_of_le_length (by simp; omega)]
    congr 2
    simp
    omega

theorem GameSession.plain_run_logs (s : GameSession)
    (hlen : s.logs.length ≤ GameSession.LOG_LIMIT) (n : Nat) :
    (GameSession.plain_run s n).logs =
      GameSession.trim_logs (s.logs ++ GameSession.snap_list s n) := by
  induction n with
  | zero =>
    show s.logs = _
    unfold GameSession.snap_list GameSession.trim_logs
    rw [List.append_nil, Nat.sub_eq_zero_of_le hlen, List.drop_zero]
  | succ n ih =>
    have hstep : (GameSession.plain_tick (GameSession.plain_run s n)).logs =
        GameSession.push_log (GameSession.plain_run s n).logs
          (GameSession.game_log_of (GameSession.plain_run s (n + 1))) := rfl
    show (GameSession.plain_tick (GameSession.plain_run s n)).logs = _
    rw [hstep, ih, GameSession.push_log_trim, GameSession.snap_list, ← List.append_assoc]

theorem GameSession.snap_list_length (s : GameSession) (n : Nat) :
    (GameSession.snap_list s n).length = n := by
  induction n with
  | zero => rfl
  | succ n ih => simp [GameSession.snap_list, ih]

theorem headI_append_left {α} [Inhabited α] (l1 l2 : List α) (h : l1 ≠ []) :
    (l1 ++ l2).headI = l1.headI := by
  cases l1 with
  | nil => exact absurd rfl h
  | cons a t => rfl

theorem GameSession.snap_list_headI (s : GameSession) (n : Nat) (h : 0 < n) :
    (GameSession.snap_list s n).headI =
      GameSession.game_log_of (GameSession.plain_run s 1) := by
  induction n with
  | zero => exact absurd h (by omega)
  | succ n ih =>
    rcases Nat.eq_zero_or_pos n with h0 | hpos
    · subst h0; rfl
    · have hne : GameSession.snap_list s n ≠ [] := by
        intro hnil
        have := GameSession.snap_list_length s n
        rw [hnil] at this
        simp at this
        omega
      show (GameSession.snap_list s n ++ _).headI = _
      rw [headI_append_left _ _ hne]
      exact ih hpos

theorem GameSession.move_backward_concat (s : GameSession) (now : Int)
    (T : List GameLog) (g : GameLog) (h : s.logs = T ++ [g]) :
    s.move_backward now = some (s.restore now T g) := by
  unfold GameSession.move_backward GameSession.restore
  rw [h, List.getLast?_concat, List.dropLast_concat]

theorem GameSession.backward_run_concat (now : Int) (gs : List GameLog) :
    ∀ (T : List GameLog) (s : GameSession), s.logs = T ++ gs → gs ≠ [] →
    ∃ sb, GameSession.backward_run now s gs.length = some sb ∧ sb.logs = T ∧
      sb.snake.direction = gs.headI.snake_direction ∧
      sb.snake.parts = gs.headI.snake_parts.map
        (fun p => (⟨p.1, p.2, Snake.PART_SIZE, Snake.PART_SIZE⟩ : Rect)) ∧
      sb.food = ⟨gs.headI.food.1, gs.headI.food.2,
        GameSession.FOOD_SIZE, GameSession.FOOD_SIZE⟩ := by
  induction gs using List.reverseRecOn with
  | nil => intro T s h hne; exact absurd rfl hne
  | append_singleton ys y ih =>
    intro T s h hne
    by_cases hys : ys = []
    · subst hys
      rw [List.nil_append] at h
      refine ⟨s.restore now T y, ?_, rfl, rfl, rfl, rfl⟩
      show (s.move_backward now).bind _ = _
      rw [GameSession.move_backward_concat s now T y h]
      rfl
    · have hpop := GameSession.move_backward_concat s now (T ++ ys) y
        (by rw [h, List.append_assoc])
      obtain ⟨sb, hrun, hlogs, hdir, hparts, hfood⟩ :=
        ih T (s.restore now (T ++ ys) y) rfl hys
      refine ⟨sb, ?_, hlogs, ?_, ?_, ?_⟩
      · have hl : (ys ++ [y]).length = ys.length + 1 := by simp
        rw [hl]
        show (s.move_backward now).bind _ = _
        rw [hpop, Option.some_bind]
        exact hrun
      · rw [headI_append_left ys [y] hys]; exact hdir
      · rw [headI_append_left ys [y] hys]; exact hparts
      · rw [headI_append_left ys [y] hys]; exact hfood

theorem map_mk_topleft (l : List (Int × Int)) :
    (l.map (fun p => (⟨p.1, p.2, Snake.PART_SIZE, Snake.PART_SIZE⟩ : Rect))).map
      Rect.topleft = l := by
  induction l with
  | nil => rfl
  | cons p t ih => simp [Rect.topleft, ih]

/-- C1 (amended): snapshots record the post-move state and a backward tick
restores the snapshot it pops, so N plain forward ticks (no food, no
collision, N ≤ LOG_LIMIT) followed by N backward ticks restore the direction
and the food position to their pre-run values, but the segment positions to
their values after the FIRST forward tick — one tick past the pre-run
positions; each backward tick shortens the history by exactly one. -/
theorem C1_rewind_restores_post_first_tick (s : GameSession) (N : Nat) (now : Int)
    (hN1 : 1 ≤ N) (hN : N ≤ GameSession.LOG_LIMIT)
    (hlen : s.logs.length ≤ GameSession.LOG_LIMIT)
    (hok : ∀ k, k < N → GameSession.plain_tick_ok (GameSession.plain_run s k)) :
    (∀ k, k < N → ∀ draw, (GameSession.plain_run s k).move_forward draw =
      some (GameSession.plain_run s (k + 1))) ∧
    ((GameSession.backward_run now (GameSession.plain_run s N) N).map
      (fun sb => sb.snake.direction) = some s.snake.direction) ∧
    ((GameSession.backward_run now (GameSession.plain_run s N) N).map
      (fun sb => sb.snake.parts.map Rect.topleft) =
      some ((GameSession.plain_run s 1).snake.parts.map Rect.topleft)) ∧
    ((GameSession.backward_run now (GameSession.plain_run s N) N).map
      (fun sb => (sb.food.left, sb.food.top)) = some (s.food.left, s.food.top)) ∧
    ((GameSession.backward_run now (GameSession.plain_run s N) N).map
      (fun sb => sb.logs.length + N) = some (GameSession.plain_run s N).logs.length) := by
  have hfwd : ∀ k, k < N → ∀ draw, (GameSession.plain_run s k).move_forward draw =
      some (GameSession.plain_run s (k + 1)) := by
    intro k hk draw
    rw [GameSession.move_forward_plain _ draw (hok k hk)]
    rfl
  have hlogsN := GameSession.plain_run_logs s hlen N
  have hsl : (GameSession.snap_list s N).length = N := GameSession.snap_list_length s N
  have hLL : GameSession.LOG_LIMIT = 25 := rfl
  have hdrop : GameSession.trim_logs (s.logs ++ GameSession.snap_list s N) =
      s.logs.drop ((s.logs ++ GameSession.snap_list s N).length - GameSession.LOG_LIMIT) ++
        GameSession.snap_list s N := by
    unfold GameSession.trim_logs
    exact List.drop_append_of_le_length (by rw [List.length_append, hsl]; omega)
  have hne : GameSession.snap_list s N ≠ [] := by
    intro h0
    rw [h0] at hsl
    simp at hsl
    omega
  obtain ⟨sb, hrun, hlogs2, hdir, hparts, hfood⟩ :=
    GameSession.backward_run_concat now (GameSession.snap_list s N) _
      (GameSession.plain_run s N) (by rw [hlogsN, hdrop]) hne
  rw [hsl] at hrun
  have hhead := GameSession.snap_list_headI s N (by omega)
  refine ⟨hfwd, ?_, ?_, ?_, ?_⟩
  · rw [hrun, Option.map_some', hdir, hhead]
    show some (GameSession.plain_run s 1).snake.direction = _
    rw [GameSession.plain_run_direction]
  · rw [hrun, Option.map_some', hparts, hhead, map_mk_topleft]
    rfl
  · rw [hrun, Option.map_some', hfood, hhead]
    show some ((GameSession.plain_run s 1).food.left, (GameSession.plain_run s 1).food.top) = _
    rw [GameSession.plain_run_food]
  · rw [hrun, Option.map_some', hlogs2, hlogsN, hdrop]
    simp [List.length_append, hsl]

/-- Witness for C1 (amended) on the fresh concrete session with N = 2. -/
theorem C1_rewind_restores_post_first_tick_witness :
    ((GameSession.backward_run 7 (GameSession.plain_run session0 2) 2).map
      (fun sb => sb.snake.direction) = some session0.snake.direction) ∧
    ((GameSession.backward_run 7 (GameSession.plain_run session0 2) 2).map
      (fun sb => sb.snake.parts.map Rect.topleft) =
      some ((GameSession.plain_run session0 1).snake.parts.map Rect.topleft)) ∧
    session0.move_forward (0, 0) = some (GameSession.plain_run session0 1) :=
  ⟨(C1_rewind_restores_post_first_tick session0 2 7 (by decide) (by decide)
      (by decide) (by decide)).2.1,
   (C1_rewind_restores_post_first_tick session0 2 7 (by decide) (by decide)
      (by decide) (by decide)).2.2.1,
   (C1_rewind_restores_post_first_tick session0 2 7 (by decide) (by decide)
      (by decide) (by decide)).1 0 (by decide) (0, 0)⟩

/-- Counterexample for C1 as claimed: from the fresh session, one forward tick
then one backward tick leaves the head at `(375, 300)` — its post-move
position — not at its pre-move position `(390, 300)` (the history length does
return to its pre-backward value minus one). -/
theorem C1_counterexample :
    ((session0.move_forward (0, 0)).bind (fun x => x.move_backward 0)).map
        (fun x => x.snake.parts.map Rect.topleft) =
      some [(375, 300), (390, 300), (390, 300)] ∧
    session0.snake.parts.map Rect.topleft =
      [(390, 300), (390, 300), (390, 300)] ∧
    ((session0.move_forward (0, 0)).bind (fun x => x.move_backward 0)).map
        (fun x => x.snake.parts.map Rect.topleft) ≠
      some (session0.snake.parts.map Rect.topleft) ∧
    ((session0.move_forward (0, 0)).bind (fun x => x.move_backward 0)).map
        (fun x => x.logs.length) = some 0 := by
  refine ⟨by decide, by decide, by decide, by decide⟩

theorem Snake.init_succ (x y : Int) (n : Nat) :
    Snake.init x y (n + 1) = (Snake.init x y n).increase := by
  unfold Snake.init
  rw [List.range_succ, List.foldl_append]
  rfl

theorem Snake.init_parts_length (x y : Int) (n : Nat) :
    (Snake.init x y n).parts.length = n + 1 := by
  induction n with
  | zero => rfl
  | succ n ih => rw [Snake.init_succ, Snake.increase_parts_length, ih]

theorem GameSession.mem_push_log {L : List GameLog} {g x : GameLog}
    (h : x ∈ GameSession.push_log L g) : x ∈ L ∨ x = g := by
  unfold GameSession.push_log at h
  split at h <;> rw [List.mem_append] at h <;> rcases h with h | h
  · exact Or.inl h
  · simp at h; exact Or.inr h
  · exact Or.inl (List.mem_of_mem_tail h)
  · simp at h; exact Or.inr h

theorem GameSession.game_log_of_parts_length (s : GameSession) :
    (GameSession.game_log_of s).snake_parts.length = s.snake.parts.length := by
  simp [GameSession.game_log_of]

theorem GameSession.handle_keypress_parts (s : GameSession) (key : Int) :
    (s.handle_keypress key).snake.parts = s.snake.parts := by
  unfold GameSession.handle_keypress
  split_ifs <;>
    simp [Snake.turn_up_parts, Snake.turn_down_parts, Snake.turn_left_parts,
      Snake.turn_right_parts]

theorem GameSession.move_forward_cases (s : GameSession) (draw : Int × Int) (s1 : GameSession)
    (h : s.move_forward draw = some s1) :
    (∃ fg, s.generate_food draw = some fg ∧
      s.snake.move.has_collisions s.area = false ∧
      s.snake.move.head.colliderect s.food = true ∧
      s1 = GameSession.add_log
        { s with
          snake := s.snake.move.increase
          is_running := true
          food := fg.1
          next_foods := fg.2 }) ∨
    ((!s.snake.move.has_collisions s.area && s.snake.move.head.colliderect s.food) = false ∧
      s1 = GameSession.add_log
        { s with
          snake := s.snake.move
          is_running := !s.snake.move.has_collisions s.area }) := by
  unfold GameSession.move_forward at h
  split at h
  · rename_i fg heq
    simp only [] at h
    split at h
    · rename_i hcond
      injection h with h
      left
      rw [Bool.and_eq_true, Bool.not_eq_true'] at hcond
      refine ⟨fg, heq, hcond.1, hcond.2, ?_⟩
      rw [← h, hcond.1]
      rfl
    · rename_i hcond
      injection h with h
      right
      exact ⟨by simpa using hcond, h.symm⟩
  · rename_i heq
    simp only [] at h
    split at h
    · exact absurd h (by simp)
    · rename_i hcond
      injection h with h
      right
      exact ⟨by simpa using hcond, h.symm⟩

/-- C3 (amended): every reachable state keeps at least `SNAKE_START_LENGTH`
segments (so the score is non-negative); forward ticks never shrink the snake,
an eating tick grows the snake and the score by exactly one, a non-eating tick
leaves them unchanged, and keypresses never touch them — but a backward tick
only preserves the `≥ 3` bound: rewinding past a growth event decreases the
segment count and the score while the session is still running. -/
theorem C3_segment_count :
    (∀ ga ft pf now draw s, GameSession.init ga ft pf now draw = some s →
      GameSession.SessionInv s ∧ s.score = 0) ∧
    (∀ (s : GameSession) draw s1, s.move_forward draw = some s1 →
      GameSession.SessionInv s →
      GameSession.SessionInv s1 ∧ s.snake.parts.length ≤ s1.snake.parts.length) ∧
    (∀ (s : GameSession) draw s1, s.snake.move.has_collisions s.area = false →
      s.snake.move.head.colliderect s.food = true → s.move_forward draw = some s1 →
      s1.snake.parts.length = s.snake.parts.length + 1 ∧ s1.score = s.score + 1) ∧
    (∀ (s : GameSession) draw s1, s.snake.move.head.colliderect s.food = false →
      s.move_forward draw = some s1 →
      s1.snake.parts.length = s.snake.parts.length ∧ s1.score = s.score) ∧
    (∀ (s : GameSession) now s1, s.move_backward now = some s1 →
      GameSession.SessionInv s → GameSession.SessionInv s1) ∧
    (∀ (s : GameSession) key,
      (s.handle_keypress key).snake.parts.length = s.snake.parts.length) ∧
    (∀ s : GameSession, GameSession.SessionInv s → 0 ≤ s.score) := by
  have hS : GameSession.SNAKE_START_LENGTH = 3 := rfl
  refine ⟨?_, ?_, ?_, ?_, ?_, ?_, ?_⟩
  · -- construction
    intro ga ft pf now draw s hinit
    unfold GameSession.init at hinit
    rw [Option.map_eq_some'] at hinit
    obtain ⟨fg, hfg, rfl⟩ := hinit
    refine ⟨⟨?_, ?_⟩, ?_⟩
    · show GameSession.SNAKE_START_LENGTH ≤ (Snake.init _ _ _).parts.length
      rw [Snake.init_parts_length]
      omega
    · intro g hg
      simp at hg
    · show ((Snake.init _ _ _).parts.length : Int) - _ = 0
      rw [Snake.init_parts_length]
      omega
  · -- any forward tick preserves the invariant and never shrinks the snake
    intro s draw s1 hmf hinv
    obtain ⟨hsnake, hlogs⟩ := hinv
    have hlenInc : s.snake.move.increase.parts.length = s.snake.parts.length + 1 := by
      rw [Snake.increase_parts_length, Snake.move_parts_length]
    rcases GameSession.move_forward_cases s draw s1 hmf with
      ⟨fg, hg, hcol, heat, rfl⟩ | ⟨hcond, rfl⟩
    · refine ⟨⟨?_, ?_⟩, ?_⟩
      · show GameSession.SNAKE_START_LENGTH ≤ s.snake.move.increase.parts.length
        rw [hlenInc]; omega
      · intro g hg2
        rcases GameSession.mem_push_log hg2 with hmem | rfl
        · exact hlogs g hmem
        · rw [GameSession.game_log_of_parts_length]
          show GameSession.SNAKE_START_LENGTH ≤ s.snake.move.increase.parts.length
          rw [hlenInc]; omega
      · show s.snake.parts.length ≤ s.snake.move.increase.parts.length
        rw [hlenInc]; omega
    · refine ⟨⟨?_, ?_⟩, ?_⟩
      · show GameSession.SNAKE_START_LENGTH ≤ s.snake.move.parts.length
        rw [Snake.move_parts_length]; omega
      · intro g hg2
        rcases GameSession.mem_push_log hg2 with hmem | rfl
        · exact hlogs g hmem
        · rw [GameSession.game_log_of_parts_length]
          show GameSession.SNAKE_START_LENGTH ≤ s.snake.move.parts.length
          rw [Snake.move_parts_length]; omega
      · show s.snake.parts.length ≤ s.snake.move.parts.length
        rw [Snake.move_parts_length]
  · -- eating tick: exactly one segment and one score point gained
    intro s draw s1 hcol heat hmf
    have hlenInc : s.snake.move.increase.parts.length = s.snake.parts.length + 1 := by
      rw [Snake.increase_parts_length, Snake.move_parts_length]
    rcases GameSession.move_forward_cases s draw s1 hmf with
      ⟨fg, hg, _, _, rfl⟩ | ⟨hcond, rfl⟩
    · constructor
      · exact hlenInc
      · show ((s.snake.move.increase.parts.length : Int)) - _ = _
        rw [hlenInc]
        unfold GameSession.score
        push_cast
        ring
    · rw [hcol, heat] at hcond
      simp at hcond
  · -- non-eating tick: segment count and score unchanged
    intro s draw s1 heat hmf
    rcases GameSession.move_forward_cases s draw s1 hmf with
      ⟨fg, hg, hcol2, heat2, rfl⟩ | ⟨hcond, rfl⟩
    · rw [heat] at heat2
      exact absurd heat2 (by simp)
    · constructor
      · show s.snake.move.parts.length = _
        rw [Snake.move_parts_length]
      · show ((s.snake.move.parts.length : Int)) - _ = _
        rw [Snake.move_parts_length]
        rfl
  · -- backward tick keeps the lower bound
    intro s now s1 hmb hinv
    obtain ⟨hsnake, hlogs⟩ := hinv
    unfold GameSession.move_backward at hmb
    split at hmb
    · exact absurd hmb (by simp)
    · rename_i g hg
      injection hmb with hmb
      subst hmb
      have hmem : g ∈ s.logs := by
        rcases List.mem_getLast?_eq_getLast (Option.mem_def.mpr hg) with ⟨hne2, rfl⟩
        exact List.getLast_mem hne2
      constructor
      · show GameSession.SNAKE_START_LENGTH ≤ (g.snake_parts.map _).length
        rw [List.length_map]
        exact hlogs g hmem
      · intro g2 hg2
        exact hlogs g2 (List.mem_of_mem_dropLast hg2)
  · -- keypresses never touch the segments
    intro s key
    rw [GameSession.handle_keypress_parts]
  · -- the score is non-negative on the invariant
    intro s hinv
    have h3 := hinv.1
    unfold GameSession.score
    omega

/-- Witness for C3 (amended): the fresh session scores 0, and the concrete
eating tick adds exactly one segment and one score point. -/
theorem C3_segment_count_witness :
    session0.score = 0 ∧
    (((session_eat.move_forward (0, 0)).getD session_eat).snake.parts.length =
        session_eat.snake.parts.length + 1 ∧
      ((session_eat.move_forward (0, 0)).getD session_eat).score = session_eat.score + 1) ∧
    0 ≤ session0.score :=
  ⟨(C3_segment_count.1 area800 40 false 0 (0, 0) session0 (by decide)).2,
   C3_segment_count.2.2.1 session_eat (0, 0) ((session_eat.move_forward (0, 0)).getD session_eat)
     (by decide) (by decide) (by decide),
   C3_segment_count.2.2.2.2.2.2 session0
     (C3_segment_count.1 area800 40 false 0 (0, 0) session0 (by decide)).1⟩

/-- Counterexample for C3 as claimed: two forward ticks (the second eats, so
the snake has 4 segments), then two backward ticks: the second backward tick
shrinks the snake from 4 back to 3 segments while the session is still
running, so the segment count (and the score) DOES decrease. -/
theorem C3_counterexample :
    ((fwd_run (GameSession.init area800 40 false 0 (350, 300)) 2).bind
        (fun s => s.move_backward 0)).map
      (fun s => (s.is_running, s.snake.parts.length)) = some (true, 4) ∧
    (((fwd_run (GameSession.init area800 40 false 0 (350, 300)) 2).bind
        (fun s => s.move_backward 0)).bind (fun s => s.move_backward 0)).map
      (fun s => (s.is_running, s.snake.parts.length)) = some (true, 3) := by
  constructor
  · decide
  · decide
